import Mathlib

/-
Verification development for the `formasaurus.classifiers` module.

The module wires pre-trained statistical models (a scikit-learn pipeline for
form types, a CRF sequence model for field types) to HTML form elements, and
serializes trained models to disk.  We give a shallow embedding of the module:
Python dicts become association lists built with Python's insertion/update
semantics, fallible code returns `Except PyError`, probabilities are modelled
as rationals, and the external helpers living in other modules of the package
(`formasaurus.html`, `formasaurus.fieldtype_model`, `formasaurus.formtype_model`,
`joblib`) are abstract function parameters collected in environment records.
-/

namespace Formasaurus

/-- Exceptions that the embedded Python code can raise. -/
inductive PyError where
  | attributeError
  | indexError
  | fileNotFoundError
  | valueError (msg : String)
  deriving DecidableEq, Repr

/-- An HTML field element; the embedding only needs its `name` attribute. -/
structure FieldElem where
  name : String
  deriving DecidableEq, Repr

/-- An HTML `<form>` element, kept abstract (identified by a tag). -/
structure FormElem where
  tag : Nat
  deriving DecidableEq, Repr

/-- A parsed lxml document, kept abstract (identified by a tag). -/
structure HtmlDoc where
  tag : Nat
  deriving DecidableEq, Repr

/-- A Python `bytes` object. -/
abbrev PyBytes := List Nat

/-- A per-field feature dict produced by `fieldtype_model.get_form_features`
(flat attribute lookups, per the spec). -/
abbrev Feat := List (String × String)

/-- The opaque JSON dictionary produced by `formtype_model.to_dict`. -/
abbrev ModelDict := List (String × String)

/-- Membership test on the keys of a Python dict modelled as an assoc list. -/
def hasKey (d : List (String × α)) (k : String) : Bool :=
  d.any (fun kv => kv.1 == k)

/-- Python dict insertion/update: `d[k] = v` keeps the original position of an
existing key and overwrites its value, otherwise appends the new pair. -/
def dictInsert (d : List (String × α)) (k : String) (v : α) : List (String × α) :=
  if hasKey d k then
    d.map (fun kv => if kv.1 == k then (k, v) else kv)
  else
    d ++ [(k, v)]

/-- Python `dict(pairs)` / dict comprehension: insert the pairs left to right,
later occurrences of a key overwriting earlier ones. -/
def pyDict (l : List (String × α)) : List (String × α) :=
  l.foldl (fun d kv => dictInsert d kv.1 kv.2) []

/-- Modelled from the spec: `formasaurus.utils.thresholded` is not under the
sources; per the docstrings of `classify_proba`, only classes with probability
greater than or equal to the threshold are preserved (in dict order). -/
def thresholded (dct : List (String × ℚ)) (threshold : ℚ) : List (String × ℚ) :=
  dct.filter (fun kv => threshold ≤ kv.2)

/-- One comparison step of Python `max` with a key function: keep the current
best unless the new candidate is strictly greater. -/
def maxStep (best y : String × ℚ) : String × ℚ :=
  if best.2 < y.2 then y else best

/-- Python `max(d, key=lambda p: d[p])` over a dict with unique keys: the first
entry attaining the maximal value wins; `none` on an empty dict (Python raises
`ValueError` there). -/
def pyMaxByVal (d : List (String × ℚ)) : Option (String × ℚ) :=
  match d with
  | [] => none
  | x :: xs => some (xs.foldl maxStep x)

/-- Python list comprehension `[f x for x in l]` where `f` may raise: stops at
the first exception, otherwise returns all results in order. -/
def exceptMap (f : α → Except PyError β) : List α → Except PyError (List β)
  | [] => .ok []
  | x :: xs =>
    match f x with
    | .error e => .error e
    | .ok y =>
      match exceptMap f xs with
      | .error e => .error e
      | .ok ys => .ok (y :: ys)

/-- The final estimator of a scikit-learn pipeline; the embedding only needs
its `classes_` attribute. -/
structure Estimator where
  classes_ : List String

/-- The scikit-learn form-type model: a pipeline with named steps whose last
step exposes `classes_`, plus `predict` / `predict_proba`. -/
structure FormModel where
  steps : List (String × Estimator)
  predict : List FormElem → List String
  predict_proba : List FormElem → List (List ℚ)

/-- The sklearn-crfsuite field-type model (`fieldtype_model` trains one):
`predict_single` labels a feature sequence, `predict_marginals_single` returns
per-item class-probability dicts. -/
structure FieldModel where
  classes_ : List String
  predict_single : List Feat → List String
  predict_marginals_single : List Feat → List (List (String × ℚ))

/-- Modelled from the spec: the helpers of `formasaurus.html` and
`formasaurus.fieldtype_model` are not under the sources.  They are kept fully
abstract: `get_fields_to_annotate` lists a form's annotatable fields in
document order, `get_forms` lists a document's forms, `load_html` parses
string/bytes sources, `get_form_features` extracts flat per-field features
conditioned on a form type. -/
structure Env where
  get_fields_to_annotate : FormElem → List FieldElem
  get_forms : HtmlDoc → List FormElem
  load_html_str : String → HtmlDoc
  load_html_bytes : PyBytes → HtmlDoc
  get_form_features : FormElem → String → List FieldElem → List Feat

/-- `FormClassifier`: wrapper for the scikit-learn form type detection model. -/
structure FormClassifier where
  model : Option FormModel
  full_type_names : Bool

/-- `FormClassifier.classes`: raises `ValueError` when untrained, otherwise
returns `self.model.steps[-1][1].classes_` (`IndexError` on an empty pipeline). -/
def FormClassifier.classes (c : FormClassifier) : Except PyError (List String) :=
  match c.model with
  | none => .error (.valueError "formtype_model is not trained")
  | some m =>
    match m.steps.getLast? with
    | none => .error .indexError
    | some st => .ok st.2.classes_

/-- `FormClassifier._probs2dict`: `thresholded(dict(zip(self.classes, probs)), threshold)`. -/
def FormClassifier._probs2dict (c : FormClassifier) (probs : List ℚ) (threshold : ℚ) :
    Except PyError (List (String × ℚ)) :=
  match c.classes with
  | .error e => .error e
  | .ok cs => .ok (thresholded (pyDict (cs.zip probs)) threshold)

/-- `FormClassifier.classify`: `self.model.predict([form])[0]`
(`AttributeError` on `None` model, `IndexError` on an empty prediction list). -/
def FormClassifier.classify (c : FormClassifier) (form : FormElem) : Except PyError String :=
  match c.model with
  | none => .error .attributeError
  | some m =>
    match m.predict [form] with
    | [] => .error .indexError
    | t :: _ => .ok t

/-- `FormClassifier.classify_proba`: `self._probs2dict(self.model.predict_proba([form])[0], threshold)`. -/
def FormClassifier.classify_proba (c : FormClassifier) (form : FormElem) (threshold : ℚ) :
    Except PyError (List (String × ℚ)) :=
  match c.model with
  | none => .error .attributeError
  | some m =>
    match m.predict_proba [form] with
    | [] => .error .indexError
    | probs :: _ => c._probs2dict probs threshold

/-- `FormFieldClassifier`: holds an optional form classifier and an optional
field model (both `None` when untrained). -/
structure FormFieldClassifier where
  form_classifier : Option FormClassifier
  _field_model : Option FieldModel

/-- Result of `FormFieldClassifier.classify`: the dict
`{'form': type}` with an optional `'fields': {name: type}` entry. -/
structure ClassifyResult where
  form : String
  fields : Option (List (String × String))
  deriving DecidableEq

/-- Result of `FormFieldClassifier.classify_proba`: the dict
`{'form': {type: prob}}` with an optional `'fields': {name: {type: prob}}` entry. -/
structure ClassifyProbaResult where
  form : List (String × ℚ)
  fields : Option (List (String × List (String × ℚ)))
  deriving DecidableEq

/-- `FormFieldClassifier.classify`: classify the form type, then (when
`fields` is true) run the field model on features conditioned on that type and
zip field names with the predicted label sequence. -/
def FormFieldClassifier.classify (env : Env) (c : FormFieldClassifier) (form : FormElem)
    (fields : Bool) : Except PyError ClassifyResult :=
  match c.form_classifier with
  | none => .error .attributeError
  | some fc =>
    match fc.classify form with
    | .error e => .error e
    | .ok form_type =>
      if fields then
        match c._field_model with
        | none => .error .attributeError
        | some fm =>
          let field_elems := env.get_fields_to_annotate form
          let xseq := env.get_form_features form form_type field_elems
          let yseq := fm.predict_single xseq
          .ok { form := form_type,
                fields := some (pyDict ((field_elems.zip yseq).map
                  (fun ec => (ec.1.name, ec.2)))) }
      else
        .ok { form := form_type, fields := none }

/-- `FormFieldClassifier.classify_proba`: thresholded form-type probabilities;
when `fields` is true, condition the field model on the argmax of that dict
(Python `max` raises `ValueError` on an empty dict) and threshold each field's
marginals. -/
def FormFieldClassifier.classify_proba (env : Env) (c : FormFieldClassifier) (form : FormElem)
    (threshold : ℚ) (fields : Bool) : Except PyError ClassifyProbaResult :=
  match c.form_classifier with
  | none => .error .attributeError
  | some fc =>
    match fc.classify_proba form threshold with
    | .error e => .error e
    | .ok form_types_proba =>
      if fields then
        match pyMaxByVal form_types_proba with
        | none => .error (.valueError "max() arg is an empty sequence")
        | some best =>
          match c._field_model with
          | none => .error .attributeError
          | some fm =>
            let field_elems := env.get_fields_to_annotate form
            let xseq := env.get_form_features form best.1 field_elems
            let yseq := fm.predict_marginals_single xseq
            .ok { form := form_types_proba,
                  fields := some (pyDict ((field_elems.zip yseq).map
                    (fun ep => (ep.1.name, thresholded ep.2 threshold)))) }
      else
        .ok { form := form_types_proba, fields := none }

/-- The `tree_or_html` argument of `extract_forms`: an lxml tree, a string, or bytes. -/
inductive TreeOrHtml where
  | tree (t : HtmlDoc)
  | str (s : String)
  | bytes (b : PyBytes)

/-- The tree `extract_forms` works on: strings and bytes go through `load_html`. -/
def resolveTree (env : Env) (x : TreeOrHtml) : HtmlDoc :=
  match x with
  | .tree t => t
  | .str s => env.load_html_str s
  | .bytes b => env.load_html_bytes b

/-- A `form_info` value: the result of `classify` or of `classify_proba`. -/
inductive FormInfo where
  | plain (r : ClassifyResult)
  | proba (r : ClassifyProbaResult)
  deriving DecidableEq

/-- `FormFieldClassifier.extract_forms`: parse when needed, list the forms,
and pair each with its `classify` / `classify_proba` result. -/
def FormFieldClassifier.extract_forms (env : Env) (c : FormFieldClassifier)
    (tree_or_html : TreeOrHtml) (proba : Bool) (threshold : ℚ) (fields : Bool) :
    Except PyError (List (FormElem × FormInfo)) :=
  let forms := env.get_forms (resolveTree env tree_or_html)
  if proba then
    exceptMap (fun form =>
      match c.classify_proba env form threshold fields with
      | .error e => .error e
      | .ok r => .ok (form, FormInfo.proba r)) forms
  else
    exceptMap (fun form =>
      match c.classify env form fields with
      | .error e => .error e
      | .ok r => .ok (form, FormInfo.plain r)) forms

/-- Content of a file written by `FormFieldClassifier.save`: either the JSON
form-classifier dict or the binary joblib dump of the field model. -/
structure FormClassifierDict where
  model : ModelDict
  full_type_names : Bool
  deriving DecidableEq

/-- A file's content on disk. -/
inductive FileContent where
  | json (d : FormClassifierDict)
  | blob (b : PyBytes)
  deriving DecidableEq

/-- The filesystem, as a map from file names to contents. -/
abbrev FS := List (String × FileContent)

/-- Writing a file (`open(..., "w")` / `joblib.dump`): the new content shadows
any previous content under the same name. -/
def fsWrite (fs : FS) (name : String) (content : FileContent) : FS :=
  (name, content) :: fs

/-- Reading a file: the most recent content under the name, if any. -/
def fsRead (fs : FS) (name : String) : Option FileContent :=
  List.lookup name fs

/-- Modelled from the spec: `formtype_model.to_dict` / `from_dict` and
`joblib.dump` / `joblib.load` are serialization helpers outside the sources
("JSON/binary serialization of model parameters for persistence"); they are
kept abstract, with round-tripping stated as a hypothesis where needed. -/
structure SerEnv where
  model_to_dict : Option FormModel → ModelDict
  model_from_dict : ModelDict → FormModel
  joblib_dump : FieldModel → PyBytes
  joblib_load : PyBytes → FieldModel

/-- `FormClassifier.to_dict`: `{"model": formtype_model.to_dict(self.model),
"full_type_names": self.full_type_names}`. -/
def FormClassifier.to_dict (env : SerEnv) (c : FormClassifier) : FormClassifierDict :=
  { model := env.model_to_dict c.model, full_type_names := c.full_type_names }

/-- `FormClassifier.from_dict`: rebuild from the serialized dict via
`formtype_model.from_dict`. -/
def FormClassifier.from_dict (env : SerEnv) (d : FormClassifierDict) : FormClassifier :=
  { model := some (env.model_from_dict d.model), full_type_names := d.full_type_names }

/-- `FormFieldClassifier._field_filename`: `f"{filename}-field.joblib"`. -/
def FormFieldClassifier._field_filename (filename : String) : String :=
  filename ++ "-field.joblib"

/-- `FormFieldClassifier._form_filename`: `f"{filename}-form.json"`. -/
def FormFieldClassifier._form_filename (filename : String) : String :=
  filename ++ "-form.json"

/-- `FormFieldClassifier.save`: raise `ValueError` when either component is
`None` (before touching the filesystem); otherwise joblib-dump the field model
and json-dump the form classifier dict.  Returns the outcome together with the
resulting filesystem. -/
def FormFieldClassifier.save (env : SerEnv) (c : FormFieldClassifier) (filename : String)
    (fs : FS) : Except PyError Unit × FS :=
  match c.form_classifier, c._field_model with
  | some fc, some fm =>
    let fs1 := fsWrite fs (FormFieldClassifier._field_filename filename)
      (.blob (env.joblib_dump fm))
    let fs2 := fsWrite fs1 (FormFieldClassifier._form_filename filename)
      (.json (fc.to_dict env))
    (.ok (), fs2)
  | _, _ => (.error (.valueError "FormFieldExtractor is not trained"), fs)

/-- The reading path of `FormFieldClassifier.load` (the branch taken when the
model files exist and neither `rebuild` nor autocreation applies): parse the
JSON form file through `FormClassifier.from_dict` and joblib-load the field
file. -/
def FormFieldClassifier.loadFrom (env : SerEnv) (fs : FS) (filename : String) :
    Except PyError FormFieldClassifier :=
  match fsRead fs (FormFieldClassifier._form_filename filename) with
  | some (.json d) =>
    match fsRead fs (FormFieldClassifier._field_filename filename) with
    | some (.blob b) =>
      .ok { form_classifier := some (FormClassifier.from_dict env d),
            _field_model := some (env.joblib_load b) }
    | _ => .error .fileNotFoundError
  | _ => .error .fileNotFoundError

/-- Restatement of the C4 claim's words for `classify`: the underlying model's
`predict` applied to the single-element list `[form]`, taking the first
element of the result. -/
def FormClassifier.classifySpec (c : FormClassifier) (form : FormElem) : Except PyError String :=
  match c.model with
  | none => .error .attributeError
  | some m =>
    match (m.predict [form]).head? with
    | none => .error .indexError
    | some t => .ok t

/-- Restatement of the C4 claim's words for `classify_proba`: the thresholded
dictionary built by pairing the model's classes with the first row of the
underlying model's `predict_proba` output for `[form]`. -/
def FormClassifier.classifyProbaSpec (c : FormClassifier) (form : FormElem) (threshold : ℚ) :
    Except PyError (List (String × ℚ)) :=
  match c.model with
  | none => .error .attributeError
  | some m =>
    match (m.predict_proba [form]).head? with
    | none => .error .indexError
    | some probs =>
      match c.classes with
      | .error e => .error e
      | .ok cs => .ok (thresholded (pyDict (cs.zip probs)) threshold)

/-
Helper lemmas about the Python-semantics building blocks.
-/

theorem exceptMap_ok {α β : Type} {f : α → Except PyError β} :
    ∀ {l : List α} {ys : List β}, exceptMap f l = .ok ys →
      ys.length = l.length ∧
      ∀ i (h1 : i < l.length) (h2 : i < ys.length),
        f (l.get ⟨i, h1⟩) = .ok (ys.get ⟨i, h2⟩) := by
  intro l
  induction l with
  | nil =>
    intro ys h
    simp only [exceptMap] at h
    cases h
    exact ⟨rfl, fun i h1 _ => absurd h1 (Nat.not_lt_zero i)⟩
  | cons x xs ih =>
    intro ys h
    simp only [exceptMap] at h
    cases hfx : f x with
    | error e => rw [hfx] at h; cases h
    | ok y =>
      rw [hfx] at h
      cases hxs : exceptMap f xs with
      | error e => rw [hxs] at h; cases h
      | ok ys2 =>
        rw [hxs] at h
        cases h
        obtain ⟨hlen, hget⟩ := ih hxs
        refine ⟨by simp [hlen], ?_⟩
        intro i h1 h2
        cases i with
        | zero => simpa using hfx
        | succ j =>
          have hj1 : j < xs.length := Nat.lt_of_succ_lt_succ h1
          have hj2 : j < ys2.length := Nat.lt_of_succ_lt_succ h2
          simpa using hget j hj1 hj2

theorem mem_thresholded {d : List (String × ℚ)} {t : ℚ} {kv : String × ℚ} :
    kv ∈ thresholded d t ↔ kv ∈ d ∧ t ≤ kv.2 := by
  simp [thresholded, List.mem_filter]

theorem thresholded_ne_nil_iff {d : List (String × ℚ)} {t : ℚ} :
    thresholded d t ≠ [] ↔ ∃ kv ∈ d, t ≤ kv.2 := by
  constructor
  · intro h
    rcases List.exists_mem_of_ne_nil _ h with ⟨kv, hkv⟩
    exact ⟨kv, (mem_thresholded.mp hkv).1, (mem_thresholded.mp hkv).2⟩
  · rintro ⟨kv, hmem, hle⟩ hnil
    have hin : kv ∈ thresholded d t := mem_thresholded.mpr ⟨hmem, hle⟩
    rw [hnil] at hin
    exact absurd hin (List.not_mem_nil kv)

theorem mem_dictInsert {α : Type} {d : List (String × α)} {k : String} {v : α}
    {kv : String × α} (h : kv ∈ dictInsert d k v) : kv ∈ d ∨ kv = (k, v) := by
  unfold dictInsert at h
  split at h
  · obtain ⟨kv0, hkv0, heq⟩ := List.mem_map.mp h
    by_cases hc : kv0.1 == k
    · rw [if_pos hc] at heq
      exact Or.inr heq.symm
    · rw [if_neg hc] at heq
      exact Or.inl (heq ▸ hkv0)
  · rcases List.mem_append.mp h with h1 | h1
    · exact Or.inl h1
    · exact Or.inr (by simpa using h1)

theorem mem_pyDict_aux {α : Type} {kv : String × α} :
    ∀ {l acc : List (String × α)},
      kv ∈ l.foldl (fun d p => dictInsert d p.1 p.2) acc → kv ∈ acc ∨ kv ∈ l := by
  intro l
  induction l with
  | nil => intro acc h; exact Or.inl h
  | cons p tl ih =>
    intro acc h
    rcases ih h with h1 | h1
    · rcases mem_dictInsert h1 with h2 | h2
      · exact Or.inl h2
      · exact Or.inr (by rw [h2]; exact List.mem_cons_self _ _)
    · exact Or.inr (List.mem_cons_of_mem _ h1)

theorem mem_pyDict {α : Type} {l : List (String × α)} {kv : String × α}
    (h : kv ∈ pyDict l) : kv ∈ l := by
  rcases mem_pyDict_aux h with h1 | h1
  · exact absurd h1 (List.not_mem_nil kv)
  · exact h1

theorem hasKey_eq_false {α : Type} {d : List (String × α)} {k : String}
    (h : k ∉ d.map Prod.fst) : hasKey d k = false := by
  simp only [hasKey, List.any_eq_false, beq_iff_eq]
  intro kv hkv heq
  exact h (List.mem_map.mpr ⟨kv, hkv, heq⟩)

theorem dictInsert_of_not_mem {α : Type} {d : List (String × α)} {k : String} (v : α)
    (h : k ∉ d.map Prod.fst) : dictInsert d k v = d ++ [(k, v)] := by
  simp [dictInsert, hasKey_eq_false h]

theorem pyDict_aux_eq_append {α : Type} :
    ∀ {l acc : List (String × α)},
      (acc.map Prod.fst ++ l.map Prod.fst).Nodup →
      l.foldl (fun d p => dictInsert d p.1 p.2) acc = acc ++ l := by
  intro l
  induction l with
  | nil => intro acc _; simp
  | cons p tl ih =>
    intro acc hnd
    simp only [List.map_cons] at hnd
    have hdisj := (List.nodup_append.mp hnd).2.2
    have hk : p.1 ∉ acc.map Prod.fst := fun hmem =>
      hdisj hmem (List.mem_cons_self _ _)
    simp only [List.foldl_cons]
    rw [dictInsert_of_not_mem p.2 hk]
    have hnd2 : ((acc ++ [(p.1, p.2)]).map Prod.fst ++ tl.map Prod.fst).Nodup := by
      rw [List.map_append, List.append_assoc]
      simpa using hnd
    rw [ih hnd2, List.append_assoc]
    rfl

theorem pyDict_eq_self_of_nodup {α : Type} {l : List (String × α)}
    (h : (l.map Prod.fst).Nodup) : pyDict l = l := by
  have hnd0 : ((([] : List (String × α)).map Prod.fst) ++ l.map Prod.fst).Nodup := by
    simpa using h
  have := pyDict_aux_eq_append hnd0
  simpa [pyDict] using this

theorem le_maxStep_left (x y : String × ℚ) : x.2 ≤ (maxStep x y).2 := by
  unfold maxStep
  split
  · exact le_of_lt (by assumption)
  · exact le_refl _

theorem le_maxStep_right (x y : String × ℚ) : y.2 ≤ (maxStep x y).2 := by
  unfold maxStep
  split
  · exact le_refl _
  · exact le_of_not_lt (by assumption)

theorem maxStep_cases (x y : String × ℚ) : maxStep x y = x ∨ maxStep x y = y := by
  unfold maxStep
  split
  · exact Or.inr rfl
  · exact Or.inl rfl

theorem foldl_maxStep_spec :
    ∀ (xs : List (String × ℚ)) (x : String × ℚ),
      (xs.foldl maxStep x = x ∨ xs.foldl maxStep x ∈ xs) ∧
      x.2 ≤ (xs.foldl maxStep x).2 ∧
      ∀ y ∈ xs, y.2 ≤ (xs.foldl maxStep x).2 := by
  intro xs
  induction xs with
  | nil =>
    intro x
    exact ⟨Or.inl rfl, le_refl _, fun y hy => absurd hy (List.not_mem_nil y)⟩
  | cons z zs ih =>
    intro x
    simp only [List.foldl_cons]
    obtain ⟨hmem, hle, hall⟩ := ih (maxStep x z)
    refine ⟨?_, le_trans (le_maxStep_left x z) hle, ?_⟩
    · rcases hmem with h | h
      · rcases maxStep_cases x z with h2 | h2
        · exact Or.inl (h.trans h2)
        · exact Or.inr (by rw [h, h2]; exact List.mem_cons_self _ _)
      · exact Or.inr (List.mem_cons_of_mem _ h)
    · intro y hy
      rcases List.mem_cons.mp hy with h | h
      · rw [h]
        exact le_trans (le_maxStep_right x z) hle
      · exact hall y h

theorem pyMaxByVal_spec {d : List (String × ℚ)} {best : String × ℚ}
    (h : pyMaxByVal d = some best) : best ∈ d ∧ ∀ kv ∈ d, kv.2 ≤ best.2 := by
  cases d with
  | nil => cases h
  | cons x xs =>
    simp only [pyMaxByVal] at h
    cases h
    obtain ⟨hmem, hle, hall⟩ := foldl_maxStep_spec xs x
    constructor
    · rcases hmem with h | h
      · rw [h]; exact List.mem_cons_self _ _
      · exact List.mem_cons_of_mem _ h
    · intro kv hkv
      rcases List.mem_cons.mp hkv with h | h
      · rw [h]; exact hle
      · exact hall kv h

theorem pyMaxByVal_eq_none_iff {d : List (String × ℚ)} : pyMaxByVal d = none ↔ d = [] := by
  cases d <;> simp [pyMaxByVal]

theorem field_filename_ne_form_filename (filename : String) :
    FormFieldClassifier._field_filename filename ≠ FormFieldClassifier._form_filename filename := by
  unfold FormFieldClassifier._field_filename FormFieldClassifier._form_filename
  intro h
  have hlen : (filename ++ "-field.joblib").length = (filename ++ "-form.json").length :=
    congrArg String.length h
  rw [String.length_append, String.length_append] at hlen
  have h1 : "-field.joblib".length = 13 := rfl
  have h2 : "-form.json".length = 10 := rfl
  omega

/-
Concrete test fixtures used to evaluate the theorems on closed inputs.
-/

/-- A concrete final pipeline estimator with two form classes. -/
def testEstimator : Estimator := { classes_ := ["login", "search"] }

/-- A concrete form-type model: always predicts `login`, with scores 3 and 1
for the two classes (probabilities are modelled as rationals; their scale is
irrelevant to the control flow under test). -/
def testFormModel : FormModel :=
  { steps := [("clf", testEstimator)],
    predict := fun _ => ["login"],
    predict_proba := fun _ => [[3, 1]] }

/-- A concrete trained form classifier. -/
def testFormClassifier : FormClassifier :=
  { model := some testFormModel, full_type_names := true }

/-- A concrete field model: labels every field `username`, with marginals 3
and 1 for the two field classes. -/
def testFieldModel : FieldModel :=
  { classes_ := ["username", "password"],
    predict_single := fun xs => xs.map (fun _ => "username"),
    predict_marginals_single := fun xs => xs.map (fun _ => [("username", 3), ("password", 1)]) }

/-- A concrete environment: one form per document, two annotatable fields per
form, one feature dict per field. -/
def testEnv : Env :=
  { get_fields_to_annotate := fun _ => [{ name := "user" }, { name := "pass" }],
    get_forms := fun _ => [{ tag := 0 }],
    load_html_str := fun _ => { tag := 0 },
    load_html_bytes := fun _ => { tag := 0 },
    get_form_features := fun _ ft elems => elems.map (fun e => [("n", e.name), ("ft", ft)]) }

/-- A concrete trained `FormFieldClassifier`. -/
def testFFC : FormFieldClassifier :=
  { form_classifier := some testFormClassifier, _field_model := some testFieldModel }

/-- An untrained `FormFieldClassifier` (both components `None`). -/
def untrainedFFC : FormFieldClassifier := { form_classifier := none, _field_model := none }

/-- A concrete serialization environment whose round-trips restore the test
models. -/
def testSerEnv : SerEnv :=
  { model_to_dict := fun _ => [("kind", "test")],
    model_from_dict := fun _ => testFormModel,
    joblib_dump := fun _ => [1, 2, 3],
    joblib_load := fun _ => testFieldModel }

instance {ε α : Type} [DecidableEq ε] [DecidableEq α] : DecidableEq (Except ε α) := fun a b =>
  match a, b with
  | .error e1, .error e2 =>
    if h : e1 = e2 then .isTrue (by rw [h]) else .isFalse (fun hc => h (Except.error.inj hc))
  | .error _, .ok _ => .isFalse (fun hc => Except.noConfusion hc)
  | .ok _, .error _ => .isFalse (fun hc => Except.noConfusion hc)
  | .ok v1, .ok v2 =>
    if h : v1 = v2 then .isTrue (by rw [h]) else .isFalse (fun hc => h (Except.ok.inj hc))

/-- Successful `FormClassifier.classify_proba` output is the thresholded dict
of classes zipped with the first `predict_proba` row. -/
theorem FormClassifier.classify_proba_ok {fc : FormClassifier} {form : FormElem} {t : ℚ}
    {m : FormModel} {probs : List ℚ} {rest : List (List ℚ)} {cs : List String}
    {d : List (String × ℚ)}
    (hm : fc.model = some m) (hpp : m.predict_proba [form] = probs :: rest)
    (hcs : fc.classes = .ok cs) (hd : fc.classify_proba form t = .ok d) :
    d = thresholded (pyDict (cs.zip probs)) t := by
  simp only [FormClassifier.classify_proba, hm, hpp, FormClassifier._probs2dict, hcs,
    Except.ok.injEq] at hd
  exact hd.symm

/-- Every value in a successful `FormClassifier.classify_proba` output meets
the threshold. -/
theorem FormClassifier.classify_proba_mem_le {fc : FormClassifier} {form : FormElem} {t : ℚ}
    {d : List (String × ℚ)} (hd : fc.classify_proba form t = .ok d) :
    ∀ kv ∈ d, t ≤ kv.2 := by
  cases hm : fc.model with
  | none => simp only [FormClassifier.classify_proba, hm] at hd; cases hd
  | some m =>
    cases hpp : m.predict_proba [form] with
    | nil => simp only [FormClassifier.classify_proba, hm, hpp] at hd; cases hd
    | cons probs rest =>
      cases hcs : fc.classes with
      | error e =>
        simp only [FormClassifier.classify_proba, hm, hpp, FormClassifier._probs2dict,
          hcs] at hd
        cases hd
      | ok cs =>
        simp only [FormClassifier.classify_proba, hm, hpp, FormClassifier._probs2dict, hcs,
          Except.ok.injEq] at hd
        intro kv hkv
        rw [← hd] at hkv
        exact (mem_thresholded.mp hkv).2

/-- C4: `FormClassifier.classify` equals taking the first element of the
model's `predict` on `[form]`, and `FormClassifier.classify_proba` equals the
thresholded dictionary pairing the model's classes with the `predict_proba`
output for `[form]` (as restated by `classifySpec` / `classifyProbaSpec`). -/
theorem claim_C4 :
    (∀ (c : FormClassifier) (form : FormElem), c.classify form = c.classifySpec form) ∧
    (∀ (c : FormClassifier) (form : FormElem) (threshold : ℚ),
      c.classify_proba form threshold = c.classifyProbaSpec form threshold) := by
  constructor
  · intro c form
    cases hm : c.model with
    | none => simp [FormClassifier.classify, FormClassifier.classifySpec, hm]
    | some m =>
      cases hp : m.predict [form] with
      | nil => simp [FormClassifier.classify, FormClassifier.classifySpec, hm, hp]
      | cons t ts => simp [FormClassifier.classify, FormClassifier.classifySpec, hm, hp]
  · intro c form threshold
    cases hm : c.model with
    | none => simp [FormClassifier.classify_proba, FormClassifier.classifyProbaSpec, hm]
    | some m =>
      cases hp : m.predict_proba [form] with
      | nil => simp [FormClassifier.classify_proba, FormClassifier.classifyProbaSpec, hm, hp]
      | cons probs rest =>
        cases hcs : c.classes with
        | error e =>
          simp [FormClassifier.classify_proba, FormClassifier.classifyProbaSpec,
            FormClassifier._probs2dict, hm, hp, hcs]
        | ok cs =>
          simp [FormClassifier.classify_proba, FormClassifier.classifyProbaSpec,
            FormClassifier._probs2dict, hm, hp, hcs]

/-- C4 witness: the equivalence evaluated on the concrete test classifier. -/
theorem claim_C4_witness :
    testFormClassifier.classify { tag := 0 } = testFormClassifier.classifySpec { tag := 0 } ∧
    testFormClassifier.classify_proba { tag := 0 } 1 =
      testFormClassifier.classifyProbaSpec { tag := 0 } 1 :=
  ⟨claim_C4.1 testFormClassifier { tag := 0 }, claim_C4.2 testFormClassifier { tag := 0 } 1⟩

/-- C6: for a fixed trained model, `classify`, `classify_proba` and
`extract_forms` are deterministic pure functions of the two model components
and the arguments; classifiers holding equal components yield equal results. -/
theorem claim_C6 (env : Env) (c c2 : FormFieldClassifier) (form : FormElem) (x : TreeOrHtml)
    (proba fields : Bool) (threshold : ℚ)
    (h1 : c.form_classifier = c2.form_classifier)
    (h2 : c._field_model = c2._field_model) :
    c.classify env form fields = c2.classify env form fields ∧
    c.classify_proba env form threshold fields = c2.classify_proba env form threshold fields ∧
    c.extract_forms env x proba threshold fields = c2.extract_forms env x proba threshold fields := by
  cases c
  cases c2
  simp only at h1 h2
  subst h1
  subst h2
  exact ⟨rfl, rfl, rfl⟩

/-- Success path of `FormFieldClassifier.classify` with `fields=True`: the
field labels come from the sequence model run on features conditioned on the
predicted form type. -/
theorem FormFieldClassifier.classify_fields_ok {env : Env} {c : FormFieldClassifier}
    {form : FormElem} {fc : FormClassifier} {fm : FieldModel} {form_type : String}
    (hfc : c.form_classifier = some fc) (hfm : c._field_model = some fm)
    (hcl : fc.classify form = .ok form_type) :
    c.classify env form true = .ok
      { form := form_type,
        fields := some (pyDict (((env.get_fields_to_annotate form).zip
          (fm.predict_single (env.get_form_features form form_type
            (env.get_fields_to_annotate form)))).map (fun ec => (ec.1.name, ec.2)))) } := by
  simp [FormFieldClassifier.classify, hfc, hcl, hfm]

/-- Success path of `FormFieldClassifier.classify_proba` with `fields=True`:
the field marginals come from features conditioned on the argmax of the
thresholded form-probability dict. -/
theorem FormFieldClassifier.classify_proba_fields_ok {env : Env} {c : FormFieldClassifier}
    {form : FormElem} {threshold : ℚ} {fc : FormClassifier} {fm : FieldModel}
    {d : List (String × ℚ)} {best : String × ℚ}
    (hfc : c.form_classifier = some fc) (hfm : c._field_model = some fm)
    (hd : fc.classify_proba form threshold = .ok d)
    (hmax : pyMaxByVal d = some best) :
    c.classify_proba env form threshold true = .ok
      { form := d,
        fields := some (pyDict (((env.get_fields_to_annotate form).zip
          (fm.predict_marginals_single (env.get_form_features form best.1
            (env.get_fields_to_annotate form)))).map
          (fun ep => (ep.1.name, thresholded ep.2 threshold)))) } := by
  simp [FormFieldClassifier.classify_proba, hfc, hd, hmax, hfm]

/-- C2: field prediction is conditioned on the predicted form type: `classify`
feeds the form classifier's type into the feature extraction; `classify_proba`
feeds the argmax of the thresholded form dict, and that class's probability is
maximal over the classifier's full output dict. -/
theorem claim_C2 :
    (∀ (env : Env) (c : FormFieldClassifier) (form : FormElem) (fc : FormClassifier)
        (fm : FieldModel) (form_type : String),
      c.form_classifier = some fc →
      c._field_model = some fm →
      fc.classify form = .ok form_type →
      c.classify env form true = .ok
        { form := form_type,
          fields := some (pyDict (((env.get_fields_to_annotate form).zip
            (fm.predict_single (env.get_form_features form form_type
              (env.get_fields_to_annotate form)))).map (fun ec => (ec.1.name, ec.2)))) }) ∧
    (∀ (env : Env) (c : FormFieldClassifier) (form : FormElem) (threshold : ℚ)
        (fc : FormClassifier) (fm : FieldModel) (m : FormModel) (probs : List ℚ)
        (rest : List (List ℚ)) (cs : List String) (d : List (String × ℚ))
        (best : String × ℚ),
      c.form_classifier = some fc →
      c._field_model = some fm →
      fc.model = some m →
      m.predict_proba [form] = probs :: rest →
      fc.classes = .ok cs →
      fc.classify_proba form threshold = .ok d →
      pyMaxByVal d = some best →
      c.classify_proba env form threshold true = .ok
        { form := d,
          fields := some (pyDict (((env.get_fields_to_annotate form).zip
            (fm.predict_marginals_single (env.get_form_features form best.1
              (env.get_fields_to_annotate form)))).map
            (fun ep => (ep.1.name, thresholded ep.2 threshold)))) } ∧
      ∀ kv ∈ pyDict (cs.zip probs), kv.2 ≤ best.2) := by
  constructor
  · intro env c form fc fm form_type hfc hfm hcl
    exact FormFieldClassifier.classify_fields_ok hfc hfm hcl
  · intro env c form threshold fc fm m probs rest cs d best hfc hfm hm hpp hcs hd hmax
    refine ⟨FormFieldClassifier.classify_proba_fields_ok hfc hfm hd hmax, ?_⟩
    have hdeq := FormClassifier.classify_proba_ok hm hpp hcs hd
    obtain ⟨hbmem, hbmax⟩ := pyMaxByVal_spec hmax
    have hbthr : threshold ≤ best.2 := by
      rw [hdeq] at hbmem
      exact (mem_thresholded.mp hbmem).2
    intro kv hkv
    by_cases hkvt : threshold ≤ kv.2
    · have : kv ∈ d := by
        rw [hdeq]
        exact mem_thresholded.mpr ⟨hkv, hkvt⟩
      exact hbmax kv this
    · exact le_trans (le_of_lt (lt_of_not_le hkvt)) hbthr

/-- C2 witness: both conditioning paths evaluated on the concrete fixtures. -/
theorem claim_C2_witness :
    testFFC.classify testEnv { tag := 0 } true = .ok
      { form := "login",
        fields := some (pyDict ((([{ name := "user" }, { name := "pass" }] :
            List FieldElem).zip
          (testFieldModel.predict_single (testEnv.get_form_features { tag := 0 } "login"
            [{ name := "user" }, { name := "pass" }]))).map
          (fun ec => (ec.1.name, ec.2)))) } ∧
    (testFFC.classify_proba testEnv { tag := 0 } 1 true = .ok
      { form := [("login", 3), ("search", 1)],
        fields := some (pyDict ((([{ name := "user" }, { name := "pass" }] :
            List FieldElem).zip
          (testFieldModel.predict_marginals_single (testEnv.get_form_features { tag := 0 }
            "login" [{ name := "user" }, { name := "pass" }]))).map
          (fun ep => (ep.1.name, thresholded ep.2 1)))) } ∧
      ∀ kv ∈ pyDict ((["login", "search"].zip [(3 : ℚ), 1])), kv.2 ≤ (("login", (3 : ℚ))).2) :=
  ⟨claim_C2.1 testEnv testFFC { tag := 0 } testFormClassifier testFieldModel "login"
      rfl rfl rfl,
    claim_C2.2 testEnv testFFC { tag := 0 } 1 testFormClassifier testFieldModel
      testFormModel [3, 1] [] ["login", "search"] [("login", 3), ("search", 1)]
      ("login", 3) rfl rfl rfl rfl rfl (by decide) (by decide)⟩

/-- C7: every probability in a successful `classify_proba` result, both in the
form mapping and in each per-field mapping, is at least the threshold; only
entries meeting the threshold are present. -/
theorem claim_C7 (env : Env) (c : FormFieldClassifier) (form : FormElem)
    (threshold : ℚ) (fields : Bool) (r : ClassifyProbaResult)
    (h : c.classify_proba env form threshold fields = .ok r) :
    (∀ kv ∈ r.form, threshold ≤ kv.2) ∧
    (∀ fl, r.fields = some fl → ∀ nd ∈ fl, ∀ kv ∈ nd.2, threshold ≤ kv.2) := by
  cases hfc : c.form_classifier with
  | none => simp only [FormFieldClassifier.classify_proba, hfc] at h; cases h
  | some fc =>
    cases hd : fc.classify_proba form threshold with
    | error e =>
      simp only [FormFieldClassifier.classify_proba, hfc, hd] at h
      cases h
    | ok d =>
      have hdle := FormClassifier.classify_proba_mem_le hd
      cases fields with
      | false =>
        simp only [FormFieldClassifier.classify_proba, hfc, hd, Bool.false_eq_true,
          if_false, Except.ok.injEq] at h
        subst h
        refine ⟨hdle, ?_⟩
        intro fl hfl
        cases hfl
      | true =>
        cases hmax : pyMaxByVal d with
        | none =>
          simp only [FormFieldClassifier.classify_proba, hfc, hd, hmax, if_true] at h
          cases h
        | some best =>
          cases hfm : c._field_model with
          | none =>
            simp only [FormFieldClassifier.classify_proba, hfc, hd, hmax, hfm, if_true] at h
            cases h
          | some fm =>
            simp only [FormFieldClassifier.classify_proba, hfc, hd, hmax, hfm, if_true,
              Except.ok.injEq] at h
            subst h
            refine ⟨hdle, ?_⟩
            intro fl hfl nd hnd kv hkv
            have hfl2 : pyDict (((env.get_fields_to_annotate form).zip
                (fm.predict_marginals_single (env.get_form_features form best.1
                  (env.get_fields_to_annotate form)))).map
                (fun ep => (ep.1.name, thresholded ep.2 threshold))) = fl :=
              Option.some.inj hfl
            rw [← hfl2] at hnd
            obtain ⟨ep, hep, heq⟩ := List.mem_map.mp (mem_pyDict hnd)
            rw [← heq] at hkv
            exact (mem_thresholded.mp hkv).2

/-- C7 witness: the threshold bound evaluated on the concrete fixtures. -/
theorem claim_C7_witness :
    (∀ kv ∈ (ClassifyProbaResult.mk [("login", (3 : ℚ)), ("search", 1)]
        (some [("user", [("username", 3), ("password", 1)]),
               ("pass", [("username", 3), ("password", 1)])])).form, (1 : ℚ) ≤ kv.2) ∧
    (∀ fl, (ClassifyProbaResult.mk [("login", (3 : ℚ)), ("search", 1)]
        (some [("user", [("username", 3), ("password", 1)]),
               ("pass", [("username", 3), ("password", 1)])])).fields = some fl →
      ∀ nd ∈ fl, ∀ kv ∈ nd.2, (1 : ℚ) ≤ kv.2) :=
  claim_C7 testEnv testFFC { tag := 0 } 1 true
    (ClassifyProbaResult.mk [("login", 3), ("search", 1)]
      (some [("user", [("username", 3), ("password", 1)]),
             ("pass", [("username", 3), ("password", 1)])])) (by decide)

/-- C8: with a trained classifier, `classify_proba` with `fields=True`
succeeds exactly when some form class clears the threshold; otherwise the
`max` over the empty thresholded dict raises `ValueError`. -/
theorem claim_C8 (env : Env) (c : FormFieldClassifier) (form : FormElem) (threshold : ℚ)
    (fc : FormClassifier) (fm : FieldModel) (m : FormModel)
    (probs : List ℚ) (rest : List (List ℚ)) (cs : List String) (d : List (String × ℚ))
    (hfc : c.form_classifier = some fc)
    (hfm : c._field_model = some fm)
    (hm : fc.model = some m)
    (hpp : m.predict_proba [form] = probs :: rest)
    (hcs : fc.classes = .ok cs)
    (hd : fc.classify_proba form threshold = .ok d) :
    ((∃ kv ∈ pyDict (cs.zip probs), threshold ≤ kv.2) →
      ∃ r, c.classify_proba env form threshold true = .ok r) ∧
    ((¬ ∃ kv ∈ pyDict (cs.zip probs), threshold ≤ kv.2) →
      c.classify_proba env form threshold true =
        .error (.valueError "max() arg is an empty sequence")) := by
  have hdeq := FormClassifier.classify_proba_ok hm hpp hcs hd
  constructor
  · intro hex
    have hne : d ≠ [] := by
      rw [hdeq]
      exact thresholded_ne_nil_iff.mpr hex
    cases hdc : d with
    | nil => exact absurd hdc hne
    | cons x xs =>
      rw [hdc] at hd
      exact ⟨_, FormFieldClassifier.classify_proba_fields_ok hfc hfm hd rfl⟩
  · intro hnex
    have hnil : d = [] := by
      by_contra hne
      exact hnex (thresholded_ne_nil_iff.mp (hdeq ▸ hne))
    rw [hnil] at hd
    simp [FormFieldClassifier.classify_proba, hfc, hd, pyMaxByVal]

/-- C8 witness: the success branch evaluated on the concrete fixtures, where
the class `login` clears the threshold. -/
theorem claim_C8_witness :
    ∃ r, testFFC.classify_proba testEnv { tag := 0 } 1 true = .ok r :=
  (claim_C8 testEnv testFFC { tag := 0 } 1 testFormClassifier testFieldModel testFormModel
      [3, 1] [] ["login", "search"] [("login", 3), ("search", 1)]
      rfl rfl rfl rfl rfl (by decide)).1
    ⟨("login", 3), by decide, by decide⟩

/-- C6 witness: determinism evaluated on the concrete fixtures. -/
theorem claim_C6_witness :
    testFFC.classify testEnv { tag := 0 } true = testFFC.classify testEnv { tag := 0 } true ∧
    testFFC.classify_proba testEnv { tag := 0 } 1 true =
      testFFC.classify_proba testEnv { tag := 0 } 1 true ∧
    testFFC.extract_forms testEnv (TreeOrHtml.str "x") false 1 true =
      testFFC.extract_forms testEnv (TreeOrHtml.str "x") false 1 true :=
  claim_C6 testEnv testFFC testFFC { tag := 0 } (TreeOrHtml.str "x") false true 1 rfl rfl

/-- C9: `FormFieldClassifier.save` raises `ValueError` exactly when a model
component is missing, raises nothing else, and leaves the filesystem unchanged
in the error case. -/
theorem claim_C9 (senv : SerEnv) (c : FormFieldClassifier) (filename : String) (fs : FS) :
    ((c.save senv filename fs).1 = .error (.valueError "FormFieldExtractor is not trained") ↔
      c.form_classifier = none ∨ c._field_model = none) ∧
    (c.form_classifier = none ∨ c._field_model = none → (c.save senv filename fs).2 = fs) ∧
    (∀ e, (c.save senv filename fs).1 = .error e →
      e = .valueError "FormFieldExtractor is not trained") := by
  cases c with
  | mk ofc ofm =>
    cases ofc with
    | none =>
      refine ⟨by simp [FormFieldClassifier.save], fun _ => rfl, fun e he => ?_⟩
      simp [FormFieldClassifier.save] at he
      exact he.symm
    | some fc =>
      cases ofm with
      | none =>
        refine ⟨by simp [FormFieldClassifier.save], fun _ => rfl, fun e he => ?_⟩
        simp [FormFieldClassifier.save] at he
        exact he.symm
      | some fm =>
        refine ⟨by simp [FormFieldClassifier.save], ?_, fun e he => ?_⟩
        · rintro (h | h) <;> cases h
        · simp [FormFieldClassifier.save] at he

/-- C3: `classify` with `fields=True` pairs the annotatable fields, in
document order, with the predicted label sequence, one label per field, and
keys the resulting mapping by field name. -/
theorem claim_C3 (env : Env) (c : FormFieldClassifier) (form : FormElem)
    (fc : FormClassifier) (fm : FieldModel) (form_type : String)
    (hfc : c.form_classifier = some fc)
    (hfm : c._field_model = some fm)
    (hcl : fc.classify form = .ok form_type)
    (hlen : (fm.predict_single (env.get_form_features form form_type
      (env.get_fields_to_annotate form))).length = (env.get_fields_to_annotate form).length)
    (hnd : ((env.get_fields_to_annotate form).map FieldElem.name).Nodup) :
    ∃ fl, c.classify env form true = .ok { form := form_type, fields := some fl } ∧
      fl = ((env.get_fields_to_annotate form).zip
        (fm.predict_single (env.get_form_features form form_type
          (env.get_fields_to_annotate form)))).map (fun ec => (ec.1.name, ec.2)) ∧
      fl.length = (env.get_fields_to_annotate form).length ∧
      fl.map Prod.fst = (env.get_fields_to_annotate form).map FieldElem.name := by
  have hkeys : ((((env.get_fields_to_annotate form).zip
      (fm.predict_single (env.get_form_features form form_type
        (env.get_fields_to_annotate form)))).map
      (fun ec => (ec.1.name, ec.2))).map Prod.fst) =
      (env.get_fields_to_annotate form).map FieldElem.name := by
    rw [List.map_map]
    have h2 : (Prod.fst ∘ fun ec : FieldElem × String => (ec.1.name, ec.2)) =
        FieldElem.name ∘ Prod.fst := rfl
    rw [h2, ← List.map_map,
      List.map_fst_zip _ _ (le_of_eq hlen.symm)]
  have hnd2 : (((((env.get_fields_to_annotate form).zip
      (fm.predict_single (env.get_form_features form form_type
        (env.get_fields_to_annotate form)))).map
      (fun ec => (ec.1.name, ec.2)))).map Prod.fst).Nodup := by
    rw [hkeys]
    exact hnd
  have hpd := pyDict_eq_self_of_nodup hnd2
  refine ⟨_, FormFieldClassifier.classify_fields_ok hfc hfm hcl, hpd, ?_, ?_⟩
  · rw [hpd, List.length_map, List.length_zip, hlen, Nat.min_self]
  · rw [hpd]
    exact hkeys

/-- C3 witness: the field pairing evaluated on the concrete fixtures. -/
theorem claim_C3_witness :
    ∃ fl, testFFC.classify testEnv { tag := 0 } true =
        .ok { form := "login", fields := some fl } ∧
      fl = (((testEnv.get_fields_to_annotate { tag := 0 })).zip
        (testFieldModel.predict_single (testEnv.get_form_features { tag := 0 } "login"
          (testEnv.get_fields_to_annotate { tag := 0 })))).map (fun ec => (ec.1.name, ec.2)) ∧
      fl.length = (testEnv.get_fields_to_annotate { tag := 0 }).length ∧
      fl.map Prod.fst = (testEnv.get_fields_to_annotate { tag := 0 }).map FieldElem.name :=
  claim_C3 testEnv testFFC { tag := 0 } testFormClassifier testFieldModel "login"
    rfl rfl rfl (by decide) (by decide)

/-- C5: model parameters round-trip through persistence: `from_dict` inverts
`to_dict`, and `loadFrom` after `save` on the same filename restores an
equivalent classifier, provided the external serializers round-trip on the
stored models. -/
theorem claim_C5 (senv : SerEnv) (c : FormFieldClassifier) (fc : FormClassifier)
    (fm : FieldModel) (m : FormModel) (filename : String) (fs : FS)
    (hfc : c.form_classifier = some fc)
    (hm : fc.model = some m)
    (hfm : c._field_model = some fm)
    (hrt_model : senv.model_from_dict (senv.model_to_dict (some m)) = m)
    (hrt_field : senv.joblib_load (senv.joblib_dump fm) = fm) :
    FormClassifier.from_dict senv (fc.to_dict senv) = fc ∧
    (c.save senv filename fs).1 = .ok () ∧
    FormFieldClassifier.loadFrom senv (c.save senv filename fs).2 filename = .ok c := by
  have hfceq : FormClassifier.from_dict senv (fc.to_dict senv) = fc := by
    cases fc with
    | mk omodel ftn =>
      simp only at hm
      subst hm
      simp [FormClassifier.from_dict, FormClassifier.to_dict, hrt_model]
  have hbf : (FormFieldClassifier._field_filename filename ==
      FormFieldClassifier._form_filename filename) = false :=
    beq_eq_false_iff_ne.mpr (field_filename_ne_form_filename filename)
  cases c with
  | mk ofc ofm =>
    simp only at hfc hfm
    subst hfc
    subst hfm
    refine ⟨hfceq, rfl, ?_⟩
    simp [FormFieldClassifier.save, FormFieldClassifier.loadFrom, fsWrite, fsRead,
      List.lookup, hbf, hfceq, hrt_field]

/-- C5 witness: the save/load round-trip evaluated on the concrete fixtures. -/
theorem claim_C5_witness :
    FormClassifier.from_dict testSerEnv (testFormClassifier.to_dict testSerEnv) =
      testFormClassifier ∧
    (testFFC.save testSerEnv "model" []).1 = .ok () ∧
    FormFieldClassifier.loadFrom testSerEnv (testFFC.save testSerEnv "model" []).2 "model" =
      .ok testFFC :=
  claim_C5 testSerEnv testFFC testFormClassifier testFieldModel testFormModel "model" []
    rfl rfl rfl rfl rfl

/-- C1: `extract_forms` returns exactly one `(form, form_info)` pair per form
found in the document, in document order, with `form_info` the `classify`
result when `proba` is false and the `classify_proba` result when `proba` is
true. -/
theorem claim_C1 (env : Env) (c : FormFieldClassifier) (x : TreeOrHtml) (proba : Bool)
    (threshold : ℚ) (fields : Bool) (l : List (FormElem × FormInfo))
    (h : c.extract_forms env x proba threshold fields = .ok l) :
    l.length = (env.get_forms (resolveTree env x)).length ∧
    ∀ i (h1 : i < (env.get_forms (resolveTree env x)).length) (h2 : i < l.length),
      (l.get ⟨i, h2⟩).1 = (env.get_forms (resolveTree env x)).get ⟨i, h1⟩ ∧
      (proba = true →
        ∃ r, c.classify_proba env ((env.get_forms (resolveTree env x)).get ⟨i, h1⟩)
            threshold fields = .ok r ∧ (l.get ⟨i, h2⟩).2 = FormInfo.proba r) ∧
      (proba = false →
        ∃ r, c.classify env ((env.get_forms (resolveTree env x)).get ⟨i, h1⟩) fields = .ok r ∧
          (l.get ⟨i, h2⟩).2 = FormInfo.plain r) := by
  cases proba with
  | true =>
    simp only [FormFieldClassifier.extract_forms, if_true] at h
    obtain ⟨hlen, hget⟩ := exceptMap_ok h
    refine ⟨hlen, ?_⟩
    intro i h1 h2
    have hf := hget i h1 h2
    cases hcp : c.classify_proba env ((env.get_forms (resolveTree env x)).get ⟨i, h1⟩)
        threshold fields with
    | error e =>
      exfalso
      simp only [hcp] at hf
      exact Except.noConfusion hf
    | ok r =>
      simp only [hcp, Except.ok.injEq] at hf
      refine ⟨?_, ?_, ?_⟩
      · rw [← hf]
      · intro _
        exact ⟨r, rfl, by rw [← hf]⟩
      · intro hco
        cases hco
  | false =>
    simp only [FormFieldClassifier.extract_forms, Bool.false_eq_true, if_false] at h
    obtain ⟨hlen, hget⟩ := exceptMap_ok h
    refine ⟨hlen, ?_⟩
    intro i h1 h2
    have hf := hget i h1 h2
    cases hcp : c.classify env ((env.get_forms (resolveTree env x)).get ⟨i, h1⟩) fields with
    | error e =>
      exfalso
      simp only [hcp] at hf
      exact Except.noConfusion hf
    | ok r =>
      simp only [hcp, Except.ok.injEq] at hf
      refine ⟨?_, ?_, ?_⟩
      · rw [← hf]
      · intro hco
        cases hco
      · intro _
        exact ⟨r, rfl, by rw [← hf]⟩

/-- The concrete `classify` result on the test fixtures. -/
def testClassifyResult : ClassifyResult :=
  { form := "login",
    fields := some [("user", "username"), ("pass", "username")] }

/-- The concrete result list of `extract_forms` on the test fixtures. -/
def testExtractList : List (FormElem × FormInfo) :=
  [({ tag := 0 }, FormInfo.plain testClassifyResult)]

/-- C1 witness: the per-form pairing evaluated on the concrete fixtures. -/
theorem claim_C1_witness :
    testExtractList.length =
      (testEnv.get_forms (resolveTree testEnv (TreeOrHtml.str "x"))).length ∧
    ∀ i (h1 : i < (testEnv.get_forms (resolveTree testEnv (TreeOrHtml.str "x"))).length)
      (h2 : i < testExtractList.length),
      (testExtractList.get ⟨i, h2⟩).1 =
        (testEnv.get_forms (resolveTree testEnv (TreeOrHtml.str "x"))).get ⟨i, h1⟩ ∧
      (false = true →
        ∃ r, testFFC.classify_proba testEnv
            ((testEnv.get_forms (resolveTree testEnv (TreeOrHtml.str "x"))).get ⟨i, h1⟩)
            1 true = .ok r ∧ (testExtractList.get ⟨i, h2⟩).2 = FormInfo.proba r) ∧
      (false = false →
        ∃ r, testFFC.classify testEnv
            ((testEnv.get_forms (resolveTree testEnv (TreeOrHtml.str "x"))).get ⟨i, h1⟩)
            true = .ok r ∧ (testExtractList.get ⟨i, h2⟩).2 = FormInfo.plain r) :=
  claim_C1 testEnv testFFC (TreeOrHtml.str "x") false 1 true testExtractList (by decide)

/-- C9 witness: saving the untrained classifier raises `ValueError` and leaves
the filesystem empty. -/
theorem claim_C9_witness :
    (untrainedFFC.save testSerEnv "model" []).1 =
      .error (.valueError "FormFieldExtractor is not trained") ∧
    (untrainedFFC.save testSerEnv "model" []).2 = [] :=
  ⟨(claim_C9 testSerEnv untrainedFFC "model" []).1.mpr (Or.inl rfl),
   (claim_C9 testSerEnv untrainedFFC "model" []).2.1 (Or.inl rfl)⟩

end Formasaurus
